import Mathlib

/-!
Shallow embedding of the Express/Mongoose social-network server in
`src/index.js` (user registration/login, post creation/listing/deletion,
like toggling, commenting).

Modelling decisions:
* Mongo ObjectIds, usernames, etc. are plain strings (`Id := String`);
  `toString` on an id is the identity, and id equality is string equality.
* Each collection is a `List` of documents in insertion order; `findOne` /
  `findById` are `List.find?` (first match), `deleteOne` removes the first
  match, and a mongoose `document.save()` writes the modified document back
  over every stored document with the same `_id`.
* JavaScript truthiness of an optional string body field: `undefined`,
  `null` and `""` are falsy, every other string is truthy (`truthy`).
* `bcrypt.hash` and `bcrypt.compare` are abstract function parameters:
  the handlers only forward to them.
* The mongoose schema files (`./schemas/UserSchema`, `./schemas/PostSchemas`)
  are not part of the source tree; the schema-provided defaults
  (freshly generated identifiers, timestamps, and the empty `likes` /
  `comments` sequences of a new post) are modelled from the spec and noted
  on the definitions that use them.
-/

namespace SocialServer

/-- Document identifiers (Mongo ObjectIds rendered as strings). -/
abbrev Id := String

/-- A document of the Users collection. -/
structure User where
  _id : Id
  username : String
  email : String
  password : String
  profilePhoto : Option String
deriving DecidableEq, Repr

/-- A comment embedded in a post: author reference, text, and the
schema-generated identifier and timestamp. -/
structure Comment where
  _id : Id
  user : Id
  text : String
  createdAt : Nat
deriving DecidableEq, Repr

/-- A document of the Posts collection. -/
structure Post where
  _id : Id
  title : String
  description : String
  image : Option String
  user : Id
  likes : List Id
  comments : List Comment
deriving DecidableEq, Repr

/-- `Post.findById postId`: the first stored post whose `_id` matches. -/
def findById (posts : List Post) (i : Id) : Option Post :=
  posts.find? (fun p => p._id == i)

/-- `User.findById userId` / `User.findOne({_id})`. -/
def findUserById (users : List User) (i : Id) : Option User :=
  users.find? (fun u => u._id == i)

/-- `document.save()` on a post document: the modified document replaces
every stored document with the same `_id`. -/
def save (posts : List Post) (p : Post) : List Post :=
  posts.map (fun q => if q._id == p._id then p else q)

/-- JavaScript truthiness of an optional string field of `req.body`:
`undefined` and the empty string are falsy. -/
def truthy : Option String → Bool
  | none => false
  | some s => s != ""

/-- The body of the like branch of `POST /posts/:id/like`:
`alreadyLiked = post.likes.includes(userId)`; if already liked, keep the
ids whose string form differs from `userId`, otherwise push `userId`. -/
def toggleLikes (likes : List Id) (userId : Id) : List Id :=
  if likes.contains userId then
    likes.filter (fun i => i != userId)
  else
    likes ++ [userId]

/-- Response of `POST /posts/:id/like`. -/
inductive LikeResponse where
  | notFound (message : String)
  | ok (post : Post)
deriving DecidableEq, Repr

/-- Handler of `POST /posts/:id/like`: look the post up, 404 if absent,
otherwise toggle the acting user in `likes` and save. -/
def likeHandler (posts : List Post) (postId userId : Id) :
    LikeResponse × List Post :=
  match findById posts postId with
  | none => (.notFound "Post not found.", posts)
  | some post =>
    let post' : Post := { post with likes := toggleLikes post.likes userId }
    (.ok post', save posts post')

/-- Response of `POST /register`. -/
inductive RegisterResponse where
  | conflict (error : String)
  | created (user : User)
deriving DecidableEq, Repr

/-- Handler of `POST /register`: 409 if a stored user already has the same
email or username (`User.findOne({$or: [{email}, {username}]})`), otherwise
hash the password and insert the new user.

Modelled from the spec: `bcrypt.hash` is the abstract parameter `hash`, and
the schema-generated identifier of the new user (the `UserSchema` file is
not under `src/`) is the parameter `freshId`. -/
def register (users : List User) (username email password : String)
    (profilePhoto : Option String) (hash : String → String) (freshId : Id) :
    RegisterResponse × List User :=
  match users.find? (fun u => u.email == email || u.username == username) with
  | some _ => (.conflict "Username or email already exists", users)
  | none =>
    let newUser : User :=
      { _id := freshId, username := username, email := email,
        password := hash password, profilePhoto := profilePhoto }
    (.created newUser, users ++ [newUser])

/-- Response of `POST /login`: both failure branches of the handler build
their response from an HTTP status and an error string. -/
inductive LoginResponse where
  | failure (status : Nat) (error : String)
  | success (user : User)
deriving DecidableEq, Repr

/-- Handler of `POST /login`: find the user by username, 401 if absent,
401 if `bcrypt.compare` rejects the password, otherwise return the user.
`bcryptCompare` abstracts `bcrypt.compare(plaintext, storedHash)`. -/
def login (users : List User) (username password : String)
    (bcryptCompare : String → String → Bool) : LoginResponse :=
  match users.find? (fun u => u.username == username) with
  | none => .failure 401 "Invalid username or password"
  | some user =>
    if bcryptCompare password user.password then .success user
    else .failure 401 "Invalid username or password"

/-- Handler of `POST /CreatePost`: insert a new post owned by `user_id`.

Modelled from the spec: the post schema (`./schemas/PostSchemas`) is not
under `src/`; per the spec a post is created via this endpoint and only
ever gains likes and comments through the toggle and comment endpoints, so
the schema defaults give a fresh identifier (`freshId`) and empty `likes`
and `comments` sequences. -/
def createPost (posts : List Post) (title description : String)
    (image : Option String) (user_id : Id) (freshId : Id) :
    Post × List Post :=
  let newPost : Post :=
    { _id := freshId, title := title, description := description,
      image := image, user := user_id, likes := [], comments := [] }
  (newPost, posts ++ [newPost])

/-- The `{_id, username, profilePhoto}` shape produced by
`populate("user", "username profilePhoto")`. -/
structure AuthorView where
  _id : Id
  username : String
  profilePhoto : Option String
deriving DecidableEq, Repr

/-- Expand a user reference at read time; `none` models the `null` a
mongoose populate yields when the referenced user does not exist. -/
def popUser (users : List User) (i : Id) : Option AuthorView :=
  (findUserById users i).map
    (fun u => { _id := u._id, username := u.username,
                profilePhoto := u.profilePhoto })

/-- A comment with its author reference expanded. -/
structure PopComment where
  _id : Id
  user : Option AuthorView
  text : String
  createdAt : Nat
deriving DecidableEq, Repr

/-- Expand a comment's author reference (`populate("comments.user", ...)`). -/
def popComment (users : List User) (c : Comment) : PopComment :=
  { _id := c._id, user := popUser users c.user, text := c.text,
    createdAt := c.createdAt }

/-- A post with its owner reference and its comments' author references
expanded, as returned by `GET /getPosts`. -/
structure PopPost where
  _id : Id
  title : String
  description : String
  image : Option String
  user : Option AuthorView
  likes : List Id
  comments : List PopComment
deriving DecidableEq, Repr

/-- Expand a post for the listing response. -/
def popPost (users : List User) (p : Post) : PopPost :=
  { _id := p._id, title := p.title, description := p.description,
    image := p.image, user := popUser users p.user, likes := p.likes,
    comments := p.comments.map (popComment users) }

/-- Response of `GET /getPosts`. -/
inductive GetPostsResponse where
  | badRequest (error : String)
  | ok (data : List PopPost)
deriving DecidableEq, Repr

/-- Handler of `GET /getPosts?userId=`: 400 if the query parameter is
missing (or empty, which is equally falsy), otherwise
`Post.find({user: userId})` populated with owner and comment authors. -/
def getPosts (users : List User) (posts : List Post)
    (userId : Option String) : GetPostsResponse :=
  if !truthy userId then .badRequest "User ID is required"
  else
    .ok ((posts.filter (fun p => p.user == userId.getD "")).map
      (popPost users))

/-- Response of `DELETE /deletePost/:id`. -/
inductive DeleteResponse where
  | notFound (message : String)
  | ok (message : String)
deriving DecidableEq, Repr

/-- `Post.deleteOne({_id: id})`: remove the(first) matching document and
report how many documents were deleted. -/
def deleteOne (posts : List Post) (i : Id) : Nat × List Post :=
  if posts.any (fun p => p._id == i) then
    (1, posts.eraseP (fun p => p._id == i))
  else (0, posts)

/-- Handler of `DELETE /deletePost/:id`: 404 when `deletedCount === 0`,
otherwise 200. -/
def deletePost (posts : List Post) (i : Id) : DeleteResponse × List Post :=
  let result := deleteOne posts i
  if result.1 == 0 then (.notFound "Post not found", posts)
  else (.ok "Post deleted successfully", result.2)

/-- The comment object returned by `POST /comment/:id`: only the newly
added comment, with its author's username and photo inlined. -/
structure CommentView where
  _id : Id
  user : AuthorView
  text : String
  createdAt : Nat
deriving DecidableEq, Repr

/-- Response of `POST /comment/:id`. `internalError` models the uncaught
exception (converted to a 500 by the catch block) that would arise if the
populate of the added comment's author produced `null`. -/
inductive CommentResponse where
  | badRequest (error : String)
  | postNotFound (error : String)
  | userNotFound (error : String)
  | internalError
  | created (comment : CommentView)
deriving DecidableEq, Repr

/-- Handler of `POST /comment/:id`: 400 when `userId` or `text` is falsy,
404 when the post or the user is missing; otherwise push the new comment,
save, populate the comments' authors, and answer with the last comment.

Modelled from the spec: the schema-generated comment identifier and
creation timestamp (the post schema is not under `src/`) are the
parameters `freshId` and `now`. -/
def commentHandler (users : List User) (posts : List Post) (postID : Id)
    (userId text : Option String) (freshId : Id) (now : Nat) :
    CommentResponse × List Post :=
  if !truthy userId || !truthy text then
    (.badRequest "User ID and comment text are required", posts)
  else
    let uid := userId.getD ""
    let txt := text.getD ""
    match findById posts postID with
    | none => (.postNotFound "Post does not exist", posts)
    | some post =>
      match findUserById users uid with
      | none => (.userNotFound "User not found", posts)
      | some _ =>
        let newComment : Comment :=
          { _id := freshId, user := uid, text := txt, createdAt := now }
        let post' : Post :=
          { post with comments := post.comments ++ [newComment] }
        let posts' := save posts post'
        let addedComment := post'.comments.getLastD newComment
        match findUserById users addedComment.user with
        | none => (.internalError, posts')
        | some author =>
          (.created
            { _id := addedComment._id,
              user := { _id := author._id, username := author.username,
                        profilePhoto := author.profilePhoto },
              text := addedComment.text,
              createdAt := addedComment.createdAt }, posts')

/-! ### Helper lemmas -/

theorem contains_iff (l : List Id) (u : Id) : l.contains u = true ↔ u ∈ l := by
  simp [List.contains, List.elem_iff]

theorem toggleLikes_of_mem {l : List Id} {u : Id} (h : u ∈ l) :
    toggleLikes l u = l.filter (fun i => i != u) := by
  rw [toggleLikes, if_pos ((contains_iff l u).mpr h)]

theorem toggleLikes_of_not_mem {l : List Id} {u : Id} (h : u ∉ l) :
    toggleLikes l u = l ++ [u] := by
  rw [toggleLikes, if_neg]
  simpa [contains_iff] using h

theorem not_mem_filter_self (l : List Id) (u : Id) :
    u ∉ l.filter (fun i => i != u) := by
  simp [List.mem_filter]

theorem mem_filter_ne {l : List Id} {u v : Id} (hv : v ≠ u) :
    v ∈ l.filter (fun i => i != u) ↔ v ∈ l := by
  simp [List.mem_filter, hv]

theorem toggleLikes_nodup {l : List Id} (u : Id) (h : l.Nodup) :
    (toggleLikes l u).Nodup := by
  by_cases hm : u ∈ l
  · rw [toggleLikes_of_mem hm]
    exact h.filter _
  · rw [toggleLikes_of_not_mem hm, List.nodup_append]
    refine ⟨h, List.nodup_singleton u, ?_⟩
    intro a ha ha'
    simp only [List.mem_singleton] at ha'
    exact hm (ha' ▸ ha)

theorem mem_toggleLikes_twice (l : List Id) (u v : Id) :
    v ∈ toggleLikes (toggleLikes l u) u ↔ v ∈ l := by
  by_cases hm : u ∈ l
  · rw [toggleLikes_of_mem hm,
        toggleLikes_of_not_mem (not_mem_filter_self l u)]
    by_cases hv : v = u
    · subst hv
      simp [hm]
    · rw [List.mem_append, mem_filter_ne hv]
      simp [hv]
  · have hmem : u ∈ l ++ [u] := by simp
    rw [toggleLikes_of_not_mem hm, toggleLikes_of_mem hmem]
    by_cases hv : v = u
    · subst hv
      simp [List.mem_filter, hm]
    · rw [mem_filter_ne hv, List.mem_append]
      simp [hv]

theorem findById_save {posts : List Post} {i : Id} {p : Post} (q : Post)
    (h : findById posts i = some p) (hq : q._id = p._id) :
    findById (save posts q) i = some q := by
  have hpid : p._id = i := by simpa using List.find?_some h
  have hqi : (q._id == i) = true := by simp [hq, hpid]
  induction posts with
  | nil => simp [findById] at h
  | cons x xs ih =>
    rw [findById] at h
    by_cases hx : (x._id == i) = true
    · rw [List.find?_cons_of_pos (p := fun y : Post => y._id == i) _ hx] at h
      obtain rfl : x = p := by injection h
      have hxq : (x._id == q._id) = true := by rw [hq]; simp
      simp only [save, List.map_cons, findById]
      rw [if_pos hxq]
      exact List.find?_cons_of_pos (p := fun y : Post => y._id == i) _ hqi
    · rw [List.find?_cons_of_neg (p := fun y : Post => y._id == i) _ hx] at h
      have hxq : ¬ (x._id == q._id) = true := by
        rw [hq, hpid]
        exact hx
      simp only [save, List.map_cons, findById]
      rw [if_neg hxq]
      rw [List.find?_cons_of_neg (p := fun y : Post => y._id == i) _ hx]
      exact ih h

theorem eraseP_not_id {posts : List Post} {i : Id}
    (hn : (posts.map Post._id).Nodup) :
    ∀ q ∈ posts.eraseP (fun p => p._id == i), q._id ≠ i := by
  induction posts with
  | nil => simp
  | cons x xs ih =>
    rw [List.map_cons, List.nodup_cons] at hn
    by_cases hx : (x._id == i) = true
    · rw [List.eraseP_cons_of_pos (p := fun y : Post => y._id == i) hx]
      intro q hq he
      apply hn.1
      have : x._id = i := by simpa using hx
      rw [List.mem_map]
      exact ⟨q, hq, by rw [he, this]⟩
    · rw [List.eraseP_cons_of_neg (p := fun y : Post => y._id == i) hx]
      intro q hq
      rcases List.mem_cons.mp hq with rfl | hq'
      · simpa using hx
      · exact ih hn.2 q hq'

/-! ### Concrete sample documents, used by the witnesses -/

/-- A sample stored user. -/
def aliceUser : User :=
  { _id := "u1", username := "alice", email := "alice@example.com",
    password := "hash1", profilePhoto := some "uploads/a.png" }

/-- A second sample stored user. -/
def bobUser : User :=
  { _id := "u2", username := "bob", email := "bob@example.com",
    password := "hash2", profilePhoto := none }

/-- A sample stored post owned by `u1` and liked by `u1`. -/
def demoPost : Post :=
  { _id := "p1", title := "t", description := "d", image := none,
    user := "u1", likes := ["u1"], comments := [] }

/-- A sample stored post with no likes and no comments. -/
def plainPost : Post :=
  { _id := "p2", title := "t2", description := "d2", image := some "i.png",
    user := "u2", likes := [], comments := [] }

/-- A post whose likes sequence is corrupted: `u1` occurs twice. -/
def corruptPost : Post :=
  { _id := "p3", title := "t3", description := "d3", image := none,
    user := "u1", likes := ["u1", "u2", "u1"], comments := [] }

/-! ### Claim theorems -/

/-- C1. For every post store and like-toggle request: if no post with the
given id exists the handler answers `notFound` and leaves the store
unchanged; otherwise it answers with an updated post in which the acting
user id has been removed from `likes` when it was present and appended when
it was absent, every other field being unchanged, and the store holds that
updated post under the same id. -/
theorem like_toggle_contract (posts : List Post) (postId userId : Id) :
    (findById posts postId = none →
      likeHandler posts postId userId =
        (LikeResponse.notFound "Post not found.", posts)) ∧
    (∀ post, findById posts postId = some post →
      ∃ post',
        (likeHandler posts postId userId).1 = LikeResponse.ok post' ∧
        findById (likeHandler posts postId userId).2 postId = some post' ∧
        post'._id = post._id ∧ post'.title = post.title ∧
        post'.description = post.description ∧ post'.image = post.image ∧
        post'.user = post.user ∧ post'.comments = post.comments ∧
        (userId ∈ post.likes →
          userId ∉ post'.likes ∧
          ∀ v, v ≠ userId → (v ∈ post'.likes ↔ v ∈ post.likes)) ∧
        (userId ∉ post.likes → post'.likes = post.likes ++ [userId])) := by
  constructor
  · intro h
    simp [likeHandler, h]
  · intro post h
    refine ⟨{ post with likes := toggleLikes post.likes userId }, ?_, ?_, ?_⟩
    · simp [likeHandler, h]
    · have : (likeHandler posts postId userId).2 =
          save posts { post with likes := toggleLikes post.likes userId } := by
        simp [likeHandler, h]
      rw [this]
      exact findById_save _ h rfl
    · refine ⟨rfl, rfl, rfl, rfl, rfl, rfl, ?_, ?_⟩
      · intro hmem
        constructor
        · simp only [toggleLikes_of_mem hmem]
          exact not_mem_filter_self _ _
        · intro v hv
          simp only [toggleLikes_of_mem hmem]
          exact mem_filter_ne hv
      · intro hmem
        simp only [toggleLikes_of_not_mem hmem]

/-- Witness for C1 on a concrete store: post `p1` has likes `[u1]`; the
hypotheses hold and a toggle by `u1` removes the like. -/
theorem like_toggle_contract_witness :
    findById [demoPost] "p1" = some demoPost ∧
    ∃ post',
      (likeHandler [demoPost] "p1" "u1").1 = LikeResponse.ok post' ∧
      "u1" ∉ post'.likes := by
  refine ⟨by decide, ?_⟩
  obtain ⟨post', h1, -, -, -, -, -, -, -, h8, -⟩ :=
    (like_toggle_contract [demoPost] "p1" "u1").2 demoPost (by decide)
  exact ⟨post', h1, (h8 (by decide)).1⟩

/-- C2. For every existing post, toggling the like of the same user twice
in succession leaves the stored post's like set equal, as a set, to its
state before the first toggle. -/
theorem like_toggle_twice_contract (posts : List Post) (postId userId : Id)
    (post : Post) (h : findById posts postId = some post) :
    ∃ post₂,
      findById
        (likeHandler (likeHandler posts postId userId).2 postId userId).2
        postId = some post₂ ∧
      ∀ v, v ∈ post₂.likes ↔ v ∈ post.likes := by
  have key : ∀ (ps : List Post) (q : Post), findById ps postId = some q →
      findById (likeHandler ps postId userId).2 postId =
        some { q with likes := toggleLikes q.likes userId } := by
    intro ps q hq
    have hsave : (likeHandler ps postId userId).2 =
        save ps { q with likes := toggleLikes q.likes userId } := by
      simp [likeHandler, hq]
    rw [hsave]
    exact findById_save _ hq rfl
  have hfind1 := key posts post h
  have hfind2 := key _ _ hfind1
  exact ⟨_, hfind2, fun v => mem_toggleLikes_twice post.likes userId v⟩

/-- Witness for C2: toggling `u2` twice on `p1` (initially liked only by
`u1`) leaves a stored post whose like set is that of the original post. -/
theorem like_toggle_twice_contract_witness :
    findById [demoPost] "p1" = some demoPost ∧
    ∃ post₂,
      findById (likeHandler (likeHandler [demoPost] "p1" "u2").2 "p1" "u2").2
        "p1" = some post₂ ∧
      ∀ v, v ∈ post₂.likes ↔ v ∈ demoPost.likes :=
  ⟨by decide, like_toggle_twice_contract [demoPost] "p1" "u2" demoPost (by decide)⟩

/-- C10. A like toggle by a user already present in the like sequence,
even several times over, removes every occurrence whose string form equals
that user's id: afterwards the id occurs zero times. -/
theorem unlike_removes_all_contract (posts : List Post) (postId userId : Id)
    (post : Post) (h : findById posts postId = some post)
    (hmem : userId ∈ post.likes) :
    ∃ post',
      (likeHandler posts postId userId).1 = LikeResponse.ok post' ∧
      post'.likes = post.likes.filter (fun i => i != userId) ∧
      post'.likes.count userId = 0 := by
  refine ⟨{ post with likes := toggleLikes post.likes userId }, ?_, ?_, ?_⟩
  · simp [likeHandler, h]
  · simp only [toggleLikes_of_mem hmem]
  · rw [List.count_eq_zero]
    simp only [toggleLikes_of_mem hmem]
    exact not_mem_filter_self _ _

/-- Witness for C10 on a corrupted store: `p3` has likes `[u1, u2, u1]`;
the un-like branch removes both occurrences of `u1`. -/
theorem unlike_removes_all_contract_witness :
    findById [corruptPost] "p3" = some corruptPost ∧ "u1" ∈ corruptPost.likes ∧
    ∃ post',
      (likeHandler [corruptPost] "p3" "u1").1 = LikeResponse.ok post' ∧
      post'.likes = corruptPost.likes.filter (fun i => i != "u1") ∧
      post'.likes.count "u1" = 0 :=
  ⟨by decide, by decide,
    unlike_removes_all_contract [corruptPost] "p3" "u1" corruptPost
      (by decide) (by decide)⟩

/-- C4. The login failure caused by a nonexistent username and the failure
caused by a failing password hash check produce identical responses: same
401 status and same error text, so the two causes are indistinguishable. -/
theorem login_failure_uniform (users : List User) (u1 p1 u2 p2 : String)
    (cmp : String → String → Bool)
    (h1 : users.find? (fun u => u.username == u1) = none)
    (h2 : ∃ x, users.find? (fun u => u.username == u2) = some x ∧
        cmp p2 x.password = false) :
    login users u1 p1 cmp =
      LoginResponse.failure 401 "Invalid username or password" ∧
    login users u2 p2 cmp =
      LoginResponse.failure 401 "Invalid username or password" ∧
    login users u1 p1 cmp = login users u2 p2 cmp := by
  obtain ⟨x, hx, hcmp⟩ := h2
  have e1 : login users u1 p1 cmp =
      LoginResponse.failure 401 "Invalid username or password" := by
    simp [login, h1]
  have e2 : login users u2 p2 cmp =
      LoginResponse.failure 401 "Invalid username or password" := by
    simp [login, hx, hcmp]
  exact ⟨e1, e2, e1.trans e2.symm⟩

/-- Witness for C4: a store with only `alice`; logging in as the absent
`mallory` and as `alice` with a rejecting hash check yield the same
response. -/
theorem login_failure_uniform_witness :
    [aliceUser].find? (fun u => u.username == "mallory") = none ∧
    (∃ x, [aliceUser].find? (fun u => u.username == "alice") = some x ∧
        (fun _ _ => false : String → String → Bool) "pw" x.password = false) ∧
    login [aliceUser] "mallory" "pw" (fun _ _ => false) =
      login [aliceUser] "alice" "pw" (fun _ _ => false) :=
  ⟨by decide, ⟨aliceUser, by decide, rfl⟩,
    (login_failure_uniform [aliceUser] "mallory" "pw" "alice" "pw"
      (fun _ _ => false) (by decide) ⟨aliceUser, by decide, rfl⟩).2.2⟩

/-- C5. If some stored user already has the requested username or the
requested email, registration answers `conflict` and inserts nothing: the
user store is returned unchanged. -/
theorem register_conflict_contract (users : List User)
    (username email password : String) (profilePhoto : Option String)
    (hash : String → String) (freshId : Id)
    (hdup : ∃ u ∈ users, u.username = username ∨ u.email = email) :
    register users username email password profilePhoto hash freshId =
      (RegisterResponse.conflict "Username or email already exists", users) := by
  obtain ⟨u, hu, hcase⟩ := hdup
  have hsome : ((users.find?
      (fun u => u.email == email || u.username == username)).isSome) = true := by
    rw [List.find?_isSome]
    refine ⟨u, hu, ?_⟩
    rcases hcase with hc | hc <;> simp [hc]
  obtain ⟨w, hw⟩ := Option.isSome_iff_exists.mp hsome
  simp [register, hw]

/-- Witness for C5: registering `bob`'s username with a fresh email is a
conflict that leaves the store unchanged, via the theorem applied to a
store holding `alice` and `bob`. -/
theorem register_conflict_contract_witness :
    (∃ u ∈ [aliceUser, bobUser], u.username = "bob" ∨ u.email = "new@example.com") ∧
    register [aliceUser, bobUser] "bob" "new@example.com" "pw" none
      (fun s => s) "u9" =
      (RegisterResponse.conflict "Username or email already exists",
        [aliceUser, bobUser]) :=
  ⟨by decide,
    register_conflict_contract [aliceUser, bobUser] "bob" "new@example.com"
      "pw" none (fun s => s) "u9" (by decide)⟩

/-- C6. If the userId or the text of a comment request is absent or empty
(falsy), the handler answers 400 `badRequest` and returns the post store
unchanged, so no document is mutated and no comment count changes. -/
theorem comment_bad_request_contract (users : List User) (posts : List Post)
    (postID : Id) (userId text : Option String) (freshId : Id) (now : Nat)
    (h : truthy userId = false ∨ truthy text = false) :
    commentHandler users posts postID userId text freshId now =
      (CommentResponse.badRequest "User ID and comment text are required",
        posts) := by
  rcases h with h | h <;> simp [commentHandler, h]

/-- Witness for C6: commenting with a present userId but empty text is a
bad request that leaves a one-post store unchanged. -/
theorem comment_bad_request_contract_witness :
    truthy (some "") = false ∧
    commentHandler [aliceUser] [demoPost] "p1" (some "u1") (some "") "c1" 5 =
      (CommentResponse.badRequest "User ID and comment text are required",
        [demoPost]) :=
  ⟨by decide,
    comment_bad_request_contract [aliceUser] [demoPost] "p1" (some "u1")
      (some "") "c1" 5 (Or.inr (by decide))⟩

/-- C8. Listing posts without a userId is a 400 `badRequest`; with a
(nonempty) userId it returns exactly the stored posts owned by that user,
in store order, owner and comment authors expanded; a user owning no posts
gets an empty sequence. -/
theorem get_posts_contract (users : List User) (posts : List Post)
    (uid : Id) (h : uid ≠ "") :
    getPosts users posts none = GetPostsResponse.badRequest "User ID is required" ∧
    getPosts users posts (some uid) =
      GetPostsResponse.ok
        ((posts.filter (fun p => p.user == uid)).map (popPost users)) ∧
    ((∀ p ∈ posts, p.user ≠ uid) →
      getPosts users posts (some uid) = GetPostsResponse.ok []) := by
  refine ⟨by simp [getPosts, truthy], by simp [getPosts, truthy, h], ?_⟩
  intro hnone
  have hfil : posts.filter (fun p => p.user == uid) = [] := by
    rw [List.filter_eq_nil_iff]
    intro p hp
    simpa using hnone p hp
  simp [getPosts, truthy, h, hfil]

/-- Witness for C8: a two-post store; listing for `u1` returns exactly the
populated `p1`, and listing for the postless `u3` returns the empty
sequence. -/
theorem get_posts_contract_witness :
    ("u1" : Id) ≠ "" ∧
    getPosts [aliceUser] [demoPost, plainPost] (some "u1") =
      GetPostsResponse.ok
        (([demoPost, plainPost].filter (fun p => p.user == "u1")).map
          (popPost [aliceUser])) ∧
    getPosts [aliceUser] [demoPost, plainPost] (some "u3") =
      GetPostsResponse.ok [] :=
  ⟨by decide,
    (get_posts_contract [aliceUser] [demoPost, plainPost] "u1" (by decide)).2.1,
    (get_posts_contract [aliceUser] [demoPost, plainPost] "u3"
      (by decide)).2.2 (by decide)⟩

/-- C9. Deletion answers `notFound` and leaves the store unchanged exactly
when no post carries the requested id; otherwise it answers 200, the
resulting store is one document shorter and a subsequence of the original,
and (ids being unique) deleting the same id again answers `notFound` and
changes nothing further. -/
theorem delete_post_contract (posts : List Post) (i : Id) :
    ((∀ p ∈ posts, p._id ≠ i) →
      deletePost posts i = (DeleteResponse.notFound "Post not found", posts)) ∧
    ((∃ p ∈ posts, p._id = i) →
      (deletePost posts i).1 = DeleteResponse.ok "Post deleted successfully" ∧
      (deletePost posts i).2.length + 1 = posts.length ∧
      (deletePost posts i).2.Sublist posts ∧
      ((posts.map Post._id).Nodup →
        deletePost (deletePost posts i).2 i =
          (DeleteResponse.notFound "Post not found", (deletePost posts i).2))) := by
  constructor
  · intro h
    have hany : posts.any (fun p => p._id == i) = false := by
      rw [Bool.eq_false_iff]
      intro hc
      obtain ⟨p, hp, hpi⟩ := List.any_eq_true.mp hc
      exact h p hp (by simpa using hpi)
    simp [deletePost, deleteOne, hany]
  · intro h
    obtain ⟨p, hp, hpi⟩ := h
    have hany : posts.any (fun p => p._id == i) = true :=
      List.any_eq_true.mpr ⟨p, hp, by simp [hpi]⟩
    have herase : (deletePost posts i).2 =
        posts.eraseP (fun p => p._id == i) := by
      simp [deletePost, deleteOne, hany]
    refine ⟨by simp [deletePost, deleteOne, hany], ?_, ?_, ?_⟩
    · rw [herase]
      exact List.length_eraseP_add_one hp (by simp [hpi])
    · rw [herase]
      exact List.eraseP_sublist posts
    · intro hnodup
      have hclean : ∀ q ∈ (deletePost posts i).2, q._id ≠ i := by
        rw [herase]
        exact eraseP_not_id hnodup
      have hany2 : (deletePost posts i).2.any (fun p => p._id == i) = false := by
        rw [Bool.eq_false_iff]
        intro hc
        obtain ⟨q, hq, hqi⟩ := List.any_eq_true.mp hc
        exact hclean q hq (by simpa using hqi)
      generalize hL : (deletePost posts i).2 = L at hany2 ⊢
      simp [deletePost, deleteOne, hany2]

/-- Witness for C9: deleting `p1` from a two-post store with distinct ids
succeeds, and deleting it again is a 404. -/
theorem delete_post_contract_witness :
    (∃ p ∈ [demoPost, plainPost], p._id = "p1") ∧
    (deletePost [demoPost, plainPost] "p1").1 =
      DeleteResponse.ok "Post deleted successfully" ∧
    deletePost (deletePost [demoPost, plainPost] "p1").2 "p1" =
      (DeleteResponse.notFound "Post not found",
        (deletePost [demoPost, plainPost] "p1").2) := by
  have h := (delete_post_contract [demoPost, plainPost] "p1").2
    (by decide)
  exact ⟨by decide, h.1, h.2.2.2 (by decide)⟩

/-- The likes invariant: every stored post's like sequence holds each user
reference at most once. -/
abbrev LikesNodup (posts : List Post) : Prop :=
  ∀ p ∈ posts, p.likes.Nodup

theorem save_likesNodup {posts : List Post} {p : Post}
    (h : LikesNodup posts) (hp : p.likes.Nodup) : LikesNodup (save posts p) := by
  intro q hq
  rw [save, List.mem_map] at hq
  obtain ⟨x, hx, hxq⟩ := hq
  by_cases hid : (x._id == p._id) = true
  · rw [← hxq, if_pos hid]
    exact hp
  · rw [← hxq, if_neg hid]
    exact h x hx

/-- C3. Starting from a store in which every post's like sequence is
duplicate-free, each operation of the system — post creation, like toggle,
comment creation, post deletion — yields a store in which it still is. -/
theorem likes_nodup_invariant (users : List User) (posts : List Post)
    (h : LikesNodup posts) :
    (∀ title description image user_id freshId,
        LikesNodup (createPost posts title description image user_id freshId).2) ∧
    (∀ postId userId, LikesNodup (likeHandler posts postId userId).2) ∧
    (∀ postID userId text freshId now,
        LikesNodup (commentHandler users posts postID userId text freshId now).2) ∧
    (∀ i, LikesNodup (deletePost posts i).2) := by
  refine ⟨?_, ?_, ?_, ?_⟩
  · intro t d img uid fid p hp
    rw [createPost] at hp
    rcases List.mem_append.mp hp with hmem | hmem
    · exact h p hmem
    · rw [List.mem_singleton] at hmem
      subst hmem
      exact List.nodup_nil
  · intro postId userId
    cases hfind : findById posts postId with
    | none => simpa [likeHandler, hfind] using h
    | some post =>
      have hrw : (likeHandler posts postId userId).2 =
          save posts { post with likes := toggleLikes post.likes userId } := by
        simp [likeHandler, hfind]
      rw [hrw]
      exact save_likesNodup h
        (toggleLikes_nodup _ (h post (List.mem_of_find?_eq_some hfind)))
  · intro postID userId text freshId now
    by_cases hbad : (!truthy userId || !truthy text) = true
    · have hrw : (commentHandler users posts postID userId text freshId now).2 =
          posts := by
        simp [commentHandler, hbad]
      rw [hrw]
      exact h
    · rw [Bool.not_eq_true] at hbad
      cases hfind : findById posts postID with
      | none =>
        have hrw : (commentHandler users posts postID userId text freshId now).2 =
            posts := by
          simp [commentHandler, hbad, hfind]
        rw [hrw]
        exact h
      | some post =>
        cases hu : findUserById users (userId.getD "") with
        | none =>
          have hrw : (commentHandler users posts postID userId text freshId
              now).2 = posts := by
            simp [commentHandler, hbad, hfind, hu]
          rw [hrw]
          exact h
        | some u =>
          have hrw : (commentHandler users posts postID userId text freshId
              now).2 = save posts { post with comments := post.comments ++
                [{ _id := freshId, user := userId.getD "",
                   text := text.getD "", createdAt := now }] } := by
            simp [commentHandler, hbad, hfind, hu, List.getLastD_concat]
          rw [hrw]
          exact save_likesNodup h (h post (List.mem_of_find?_eq_some hfind))
  · intro i q hq
    have hsub : (deletePost posts i).2.Sublist posts := by
      by_cases hany : (posts.any (fun p => p._id == i)) = true
      · have : (deletePost posts i).2 = posts.eraseP (fun p => p._id == i) := by
          simp [deletePost, deleteOne, hany]
        rw [this]
        exact List.eraseP_sublist posts
      · have : (deletePost posts i).2 = posts := by
          simp [deletePost, deleteOne, hany]
        rw [this]
    exact h q (hsub.subset hq)

/-- Witness for C3: the invariant holds of a concrete two-post store and,
via the theorem, still holds after a like toggle on it. -/
theorem likes_nodup_invariant_witness :
    LikesNodup [demoPost, plainPost] ∧
    LikesNodup (likeHandler [demoPost, plainPost] "p1" "u2").2 :=
  ⟨by decide,
    (likes_nodup_invariant [aliceUser] [demoPost, plainPost]
      (by decide)).2.1 "p1" "u2"⟩

/-- C7. A comment request whose post and user exist and whose userId and
text are nonempty appends exactly one new comment — the given text and
author, the schema-generated id and timestamp — to the end of that post's
comment sequence in the store, and responds with only that comment, its
author's username and profile photo inlined. -/
theorem comment_success_contract (users : List User) (posts : List Post)
    (postID : Id) (uid txt : String) (freshId : Id) (now : Nat)
    (post : Post) (user : User)
    (hpost : findById posts postID = some post)
    (huser : findUserById users uid = some user)
    (huid : uid ≠ "") (htxt : txt ≠ "") :
    ∃ posts',
      commentHandler users posts postID (some uid) (some txt) freshId now =
        (CommentResponse.created
          { _id := freshId,
            user := { _id := user._id, username := user.username,
                      profilePhoto := user.profilePhoto },
            text := txt, createdAt := now }, posts') ∧
      findById posts' postID =
        some { post with comments := post.comments ++
          [{ _id := freshId, user := uid, text := txt, createdAt := now }] } := by
  have htu : truthy (some uid) = true := by simp [truthy, huid]
  have htt : truthy (some txt) = true := by simp [truthy, htxt]
  refine ⟨save posts { post with comments := post.comments ++
    [{ _id := freshId, user := uid, text := txt, createdAt := now }] }, ?_, ?_⟩
  · simp only [commentHandler, htu, htt, Bool.not_true, Bool.or_self,
      Bool.false_eq_true, if_false, Option.getD_some, hpost, huser,
      List.getLastD_concat]
  · exact findById_save _ hpost rfl

/-- Witness for C7: `alice` comments `hi` on the comment-free post `p2`;
the response is exactly the new comment with her username and photo, and
the stored post gained exactly that comment at the end. -/
theorem comment_success_contract_witness :
    findById [plainPost] "p2" = some plainPost ∧
    findUserById [aliceUser] "u1" = some aliceUser ∧
    ∃ posts',
      commentHandler [aliceUser] [plainPost] "p2" (some "u1") (some "hi")
        "c1" 7 =
        (CommentResponse.created
          { _id := "c1",
            user := { _id := "u1", username := "alice",
                      profilePhoto := some "uploads/a.png" },
            text := "hi", createdAt := 7 }, posts') ∧
      findById posts' "p2" =
        some { plainPost with comments := plainPost.comments ++
          [{ _id := "c1", user := "u1", text := "hi", createdAt := 7 }] } :=
  ⟨by decide, by decide,
    comment_success_contract [aliceUser] [plainPost] "p2" "u1" "hi" "c1" 7
      plainPost aliceUser (by decide) (by decide) (by decide) (by decide)⟩

end SocialServer
